import Mathlib

/-!
Verification of the signed-cookie session protocol of `@scayle/h3-session`.

JavaScript strings are embedded as `List Char`, byte sequences as `List Nat`
(each entry `< 256`).  The HMAC-SHA256 primitive (provided by `uncrypto` /
WebCrypto, external to this repository) is abstracted as a parameter
`hmac : List Char → List Char → List Nat` mapping a secret and a message to a
digest; HMAC-SHA256 always produces a 32-byte digest, which appears as an
explicit hypothesis where needed.
-/

deriving instance DecidableEq for Except

namespace H3Session

/-- The standard base64 alphabet, as used by Node's `Buffer.toString('base64')`
(`src/src/index.ts`, `signCookie`). -/
def b64Alphabet : List Char :=
  "ABCDEFGHIJKLMNOPQRSTUVWXYZabcdefghijklmnopqrstuvwxyz0123456789+/".toList

/-- The base64 character for a 6-bit value. -/
def b64Char (n : Nat) : Char := b64Alphabet.getD n 'A'

/-- The 6-bit value of a base64 character (used when decoding a signature with
`Buffer.from(signature, 'base64')` in `unsignCookie`). -/
def b64Value (c : Char) : Nat := b64Alphabet.indexOf c

/-- Base64 encoding of a byte list, with `=` padding, three bytes per group
(the encoding performed by `Buffer.from(signature).toString('base64')`). -/
def base64EncodeCore : List Nat → List Char
  | [] => []
  | [b1] => [b64Char (b1 / 4), b64Char (b1 % 4 * 16), '=', '=']
  | [b1, b2] =>
    [b64Char (b1 / 4), b64Char (b1 % 4 * 16 + b2 / 16), b64Char (b2 % 16 * 4), '=']
  | b1 :: b2 :: b3 :: rest =>
    b64Char (b1 / 4) :: b64Char (b1 % 4 * 16 + b2 / 16) ::
      b64Char (b2 % 16 * 4 + b3 / 64) :: b64Char (b3 % 64) :: base64EncodeCore rest

/-- Strip every trailing `=`; embeds `.replace(/=+$/, '')` from `signCookie`
(`src/src/index.ts` lines 161-163). -/
def stripEq (l : List Char) : List Char :=
  (l.reverse.dropWhile (fun c => c = '=')).reverse

/-- Unpadded base64 of a byte list: `Buffer.from(bytes).toString('base64').replace(/=+$/, '')`. -/
def base64Encode (bytes : List Nat) : List Char := stripEq (base64EncodeCore bytes)

/-- Base64 decoding, four characters per group, as applied by
`Buffer.from(signature, 'base64')` to the (unpadded) signature part of a
cookie value in `unsignCookie`. -/
def base64Decode : List Char → List Nat
  | c1 :: c2 :: c3 :: c4 :: rest =>
    (b64Value c1 * 4 + b64Value c2 / 16) ::
      (b64Value c2 % 16 * 16 + b64Value c3 / 4) ::
      (b64Value c3 % 4 * 64 + b64Value c4) :: base64Decode rest
  | [c1, c2, c3] =>
    [b64Value c1 * 4 + b64Value c2 / 16, b64Value c2 % 16 * 16 + b64Value c3 / 4]
  | [c1, c2] => [b64Value c1 * 4 + b64Value c2 / 16]
  | _ => []

/-- `const signatureLength = 43` (`src/src/index.ts` line 72): the length of a
base64-encoded, unpadded 32-byte HMAC-SHA256 digest. -/
def signatureLength : Nat := 43

/-- Embeds `parseCookieValue` (`src/src/index.ts` lines 73-92): reject values
shorter than `signatureLength + 3`, anchor the separator `.` from the end of
the string at the fixed signature length, check the `s:` prefix, and return
the identifier and signature substrings. -/
def parseCookieValue (value : List Char) : Option (List Char × List Char) :=
  if value.length < signatureLength + 3 then
    none
  else
    let separatorIndex := value.length - signatureLength - 1
    if value.getD 0 ' ' ≠ 's' ∨ value.getD 1 ' ' ≠ ':' ∨
        value.getD separatorIndex ' ' ≠ '.' then
      none
    else
      some ((value.take separatorIndex).drop 2, value.drop (separatorIndex + 1))

/-- The verification loop of `unsignCookie` (`src/src/index.ts` lines 118-131):
for each secret in order, compare the HMAC digest of the message against the
decoded signature bytes; return the message on the first match. -/
def verifyLoop (hmac : List Char → List Char → List Nat) (sigBytes : List Nat)
    (message : List Char) : List (List Char) → Option (List Char)
  | [] => none
  | s :: rest =>
    if hmac s message = sigBytes then some message
    else verifyLoop hmac sigBytes message rest

/-- Embeds `unsignCookie` (`src/src/index.ts` lines 101-134): parse the cookie
value, decode the signature from base64, and scan the secrets in order,
returning the embedded message on the first HMAC match and `none` (JS `false`)
otherwise.  The function is total: malformed input yields `none`, never an
error. -/
def unsignCookie (hmac : List Char → List Char → List Nat) (value : List Char)
    (secrets : List (List Char)) : Option (List Char) :=
  match parseCookieValue value with
  | none => none
  | some (message, signature) =>
    verifyLoop hmac (base64Decode signature) message secrets

/-- Embeds `signCookie` (`src/src/index.ts` lines 141-166): error on an empty
(falsy) value or secret, otherwise return
`s:<value>.<unpadded base64 of the HMAC-SHA256 digest>`. -/
def signCookie (hmac : List Char → List Char → List Nat) (value secret : List Char) :
    Except (List Char) (List Char) :=
  if value = [] then
    Except.error "[h3-session] No value was provided!".toList
  else if secret = [] then
    Except.error "[h3-session] No secret was provided!".toList
  else
    Except.ok ('s' :: ':' :: (value ++ '.' :: base64Encode (hmac secret value)))

/-- A concrete stand-in for the abstract HMAC-SHA256 primitive, used only to
instantiate theorems on concrete inputs: it produces a 32-byte digest that
depends on the key (secret) length and the message length. -/
def hmacToy (k m : List Char) : List Nat :=
  (List.range 32).map (fun i => (k.length * 131 + m.length * 7 + i) % 256)

/-! ### The session store contract and a reference key-value store -/

/-- An abstract session store over a state type `σ`, data type `D` and
backend error type `E`; embeds the `SessionStore` interface
(`src/src/index.ts` lines 21-29).  `touch` is optional, matching the
`store.touch && data` presence probe in `createExistingSession`. -/
structure StoreModel (σ D E : Type) where
  get : σ → List Char → Except E (Option D)
  set : σ → List Char → D → Except E σ
  destroy : σ → List Char → Except E σ
  touch : Option (σ → List Char → D → Except E σ)

/-- Association-list lookup by session id: an idealized conforming key-value
store. -/
def mapGet {D : Type} (m : List (List Char × D)) (k : List Char) : Option D :=
  (m.find? (fun e => e.1 = k)).map (fun e => e.2)

/-- Association-list overwrite by session id. -/
def mapSet {D : Type} (m : List (List Char × D)) (k : List Char) (v : D) :
    List (List Char × D) :=
  m.filter (fun e => e.1 ≠ k) ++ [(k, v)]

/-- Association-list removal by session id. -/
def mapErase {D : Type} (m : List (List Char × D)) (k : List Char) :
    List (List Char × D) :=
  m.filter (fun e => e.1 ≠ k)

/-- An idealized in-memory store satisfying the `SessionStore` contract:
`get` never fails, `touch` refreshes by re-writing the entry. -/
def mapStore (D : Type) : StoreModel (List (List Char × D)) D Unit where
  get := fun σ0 k => Except.ok (mapGet σ0 k)
  set := fun σ0 k v => Except.ok (mapSet σ0 k v)
  destroy := fun σ0 k => Except.ok (mapErase σ0 k)
  touch := some fun σ0 k v => Except.ok (mapSet σ0 k v)

/-- A store whose backend fails on every `get`, modelling a storage outage. -/
def failingGetStore (D : Type) : StoreModel Unit D (List Char) where
  get := fun _ _ => Except.error "backend unavailable".toList
  set := fun σ0 _ _ => Except.ok σ0
  destroy := fun σ0 _ => Except.ok σ0
  touch := none

/-! ### Cookie descriptors -/

/-- The session cookie attributes carried by the descriptor built in
`createSessionCookie` (`src/src/index.ts` lines 216-243). -/
structure CookieModel where
  path : List Char
  domain : Option (List Char)
  httpOnly : Bool
  secure : Bool
  maxAge : Int
  deriving DecidableEq

/-- The configured cookie attributes after `defu` merging with the defaults
`(path '/', httpOnly true, secure true, maxAge null)`; `maxAge = none` models
JS `null`/`undefined`. -/
structure CookieConfig where
  path : List Char
  domain : Option (List Char)
  httpOnly : Bool
  secure : Bool
  maxAge : Option Int
  deriving DecidableEq

/-- JS `x || d` on a number-or-null value: `null`, `undefined` and `0` are
all falsy and replaced by the default. -/
def jsOrNum (m : Option Int) (d : Int) : Int :=
  match m with
  | none => d
  | some x => if x = 0 then d else x

/-- The cookie attributes produced at cookie construction time
(`src/src/index.ts` lines 219-230): a spread of the configured cookie with
`maxAge: sessionConfig.cookie.maxAge || 60 * 60 * 24`. -/
def cookieFromConfig (c : CookieConfig) : CookieModel :=
  { path := c.path, domain := c.domain, httpOnly := c.httpOnly, secure := c.secure,
    maxAge := jsOrNum c.maxAge (60 * 60 * 24) }

/-! ### The cookie proxy (`createSessionCookie`'s returned `Proxy`) -/

/-- JS property assignment on a plain object, properties and values modelled
stringly. -/
def setProp (t : List (List Char × List Char)) (p v : List Char) :
    List (List Char × List Char) :=
  t.filter (fun e => e.1 ≠ p) ++ [(p, v)]

/-- JS property lookup on a plain object. -/
def lookupProp (t : List (List Char × List Char)) (p : List Char) :
    Option (List Char) :=
  (t.find? (fun e => e.1 = p)).map (fun e => e.2)

/-- The target object of the cookie proxy together with the log of `setCookie`
header emissions (each emission records the cookie attributes it serialized). -/
structure CookieProxyState where
  target : List (List Char × List Char)
  emitted : List (List (List Char × List Char))
  deriving DecidableEq

/-- The `set` trap of the `Proxy` returned by `createSessionCookie`
(`src/src/index.ts` lines 236-243): assign the property on the target,
re-emit the `Set-Cookie` header with the updated attributes, and return
`true` — in JS, a `set` trap returning `true` means the assignment succeeded
and no error is thrown.  The trap does not special-case any property name. -/
def cookieProxySet (st : CookieProxyState) (property value : List Char) :
    CookieProxyState × Bool :=
  let target1 := setProp st.target property value
  (⟨target1, st.emitted ++ [target1]⟩, true)

/-- A cookie target as constructed for a fresh session cookie with the default
configuration, after its initial header emission. -/
def initialCookieProxyState : CookieProxyState :=
  ⟨[("path".toList, "/".toList), ("httpOnly".toList, "true".toList),
      ("secure".toList, "true".toList), ("maxAge".toList, "86400".toList)],
    [[("path".toList, "/".toList), ("httpOnly".toList, "true".toList),
      ("secure".toList, "true".toList), ("maxAge".toList, "86400".toList)]]⟩

/-! ### The session entity -/

/-- The live session entity (current `session.ts`, `src/unnamed/part_006`):
identifier, data and the attached cookie descriptor.  The store and generate
references it holds are passed explicitly to the lifecycle operations. -/
structure SessionModel (D : Type) where
  id : List Char
  data : D
  cookie : CookieModel
  deriving DecidableEq

/-- `Session.save` (current `session.ts`, `src/unnamed/part_006`): write the
current data to the store under the current identifier.  (An older
`session.ts` also present in the tree additionally stored the cookie
descriptor; CHANGELOG 0.5.0 removed that: "Cookie metadata is no longer saved
in the session store".) -/
def sessionSave {σ D E : Type} (st : StoreModel σ D E) (s : SessionModel D)
    (σ0 : σ) : Except E σ :=
  st.set σ0 s.id s.data

/-- `Session.destroy` (`session.ts`): set the cookie's `maxAge` to `0` and
remove the entry from the store.  The entity mutation happens before — and
regardless of — the store call, so the mutated entity is returned alongside
the store result. -/
def sessionDestroy {σ D E : Type} (st : StoreModel σ D E) (s : SessionModel D)
    (σ0 : σ) : SessionModel D × Except E σ :=
  ({ s with cookie := { s.cookie with maxAge := 0 } }, st.destroy σ0 s.id)

/-! ### The session resolution orchestrator (`useSession`) -/

/-- The per-request session configuration after `defu` defaulting
(`src/src/index.ts` lines 192-200).  The `genid` and `generate` functions are
modelled by the values they produce for this request. -/
structure SessionConfig (D : Type) where
  name : List Char
  genid : List Char
  generate : D
  cookie : CookieConfig
  saveUninitialized : Bool
  secret : List Char ⊕ List (List Char)

/-- `Array.isArray(sessionConfig.secret) ? sessionConfig.secret : [sessionConfig.secret]`
(`src/src/index.ts` lines 212-214). -/
def normalizeSecret : List Char ⊕ List (List Char) → List (List Char)
  | Sum.inl s => [s]
  | Sum.inr ss => ss

/-- The falsy-secret check of `validateConfig` (`src/src/index.ts` lines
173-175): a scalar empty string is falsy; an array — even an empty one — is
truthy in JS. -/
def secretMissing : List Char ⊕ List (List Char) → Bool
  | Sum.inl s => s.isEmpty
  | Sum.inr _ => false

/-- The distinguishable error classes `useSession` can propagate:
configuration errors from `validateConfig`, input errors from `signCookie`,
and storage-backend errors from the store. -/
inductive SessionError (E : Type) where
  | configError (msg : List Char)
  | signError (msg : List Char)
  | storeError (e : E)
  deriving DecidableEq

/-- What `useSession` attaches to the request context (`session`,
`sessionId`), together with the signed cookie value last emitted and the
final store state. -/
structure UseSessionResult (σ D : Type) where
  session : SessionModel D
  sessionId : List Char
  signedCookie : List Char
  store : σ
  deriving DecidableEq

/-- `createSessionCookie` (`src/src/index.ts` lines 216-244): build the cookie
attributes (with the one-day default for a falsy `maxAge`), sign the session
id with the last secret of the normalized list
(`normalizedSecrets[normalizedSecrets.length - 1]`; on an empty list the JS
`undefined` is falsy exactly like the modelled `[]`), and emit the signed
value.  Returns the cookie descriptor and the signed cookie value, or the
`signCookie` error. -/
def buildSessionCookie (hmac : List Char → List Char → List Nat) {D : Type}
    (cfg : SessionConfig D) (sid : List Char) :
    Except (List Char) (CookieModel × List Char) :=
  match signCookie hmac sid ((normalizeSecret cfg.secret).getLastD []) with
  | Except.error m => Except.error m
  | Except.ok w => Except.ok (cookieFromConfig cfg.cookie, w)

/-- `createNewSession` (`src/src/index.ts` lines 261-273): generate a fresh
id and data, build and emit the cookie, and, when `saveUninitialized` is
set, immediately persist the session via `session.save()`. -/
def createNewSessionModel (hmac : List Char → List Char → List Nat) {σ D E : Type}
    (cfg : SessionConfig D) (st : StoreModel σ D E) (σ0 : σ) :
    Except (SessionError E) (Option (UseSessionResult σ D)) :=
  match buildSessionCookie hmac cfg cfg.genid with
  | Except.error m => Except.error (SessionError.signError m)
  | Except.ok (ck, w) =>
    let sess : SessionModel D := ⟨cfg.genid, cfg.generate, ck⟩
    if cfg.saveUninitialized then
      match sessionSave st sess σ0 with
      | Except.error e => Except.error (SessionError.storeError e)
      | Except.ok σ1 => Except.ok (some ⟨sess, cfg.genid, w, σ1⟩)
    else
      Except.ok (some ⟨sess, cfg.genid, w, σ0⟩)

/-- The guarded touch call of `createExistingSession`
(`if (store.touch && data) await store.touch(id, data)`): refresh the entry
when both a `touch` capability and loaded data are present, otherwise leave
the store state unchanged. -/
def touchStepModel {σ D E : Type} (st : StoreModel σ D E) (σ0 : σ) (sid : List Char)
    (dataOpt : Option D) : Except E σ :=
  match dataOpt, st.touch with
  | some d, some touchFn => touchFn σ0 sid d
  | _, _ => Except.ok σ0

/-- `createExistingSession` (`src/src/index.ts` lines 275-292): build and emit
the cookie for the existing identifier, touch the store entry when both a
`touch` capability and loaded data are present, and attach a session that
pairs the identifier with the loaded data, or with freshly generated data
when none was loaded (`data ?? sessionConfig.generate()`). -/
def createExistingSessionModel (hmac : List Char → List Char → List Nat) {σ D E : Type}
    (cfg : SessionConfig D) (st : StoreModel σ D E) (σ0 : σ) (sid : List Char)
    (dataOpt : Option D) : Except (SessionError E) (Option (UseSessionResult σ D)) :=
  match buildSessionCookie hmac cfg sid with
  | Except.error m => Except.error (SessionError.signError m)
  | Except.ok (ck, w) =>
    match touchStepModel st σ0 sid dataOpt with
    | Except.error e => Except.error (SessionError.storeError e)
    | Except.ok σ1 =>
      Except.ok (some ⟨⟨sid, dataOpt.getD cfg.generate, ck⟩, sid, w, σ1⟩)

/-- `useSession` (`src/src/index.ts` lines 183-305).  `hasSession` models the
idempotency guard `if (event.context.session) return` and `rawCookie` the
result of `getCookie`; a result of `Except.ok none` means the call returned
leaving the context untouched.  An extracted identifier is run through the
JS truthiness test `if (sessionId)` (an empty string is falsy), the store is
consulted only for a truthy identifier, and a thrown store error propagates
without any session being attached. -/
def useSessionModel (hmac : List Char → List Char → List Nat) {σ D E : Type}
    (cfg : SessionConfig D) (st : StoreModel σ D E) (σ0 : σ)
    (hasSession : Bool) (rawCookie : Option (List Char)) :
    Except (SessionError E) (Option (UseSessionResult σ D)) :=
  if hasSession then Except.ok none
  else if secretMissing cfg.secret then
    Except.error (SessionError.configError "[h3-session] Session secret is required!".toList)
  else
    let sessionId : Option (List Char) :=
      match rawCookie with
      | none => none
      | some raw =>
        match unsignCookie hmac raw (normalizeSecret cfg.secret) with
        | none => none
        | some m => if m.isEmpty then none else some m
    match sessionId with
    | none => createNewSessionModel hmac cfg st σ0
    | some sid =>
      match st.get σ0 sid with
      | Except.error e => Except.error (SessionError.storeError e)
      | Except.ok dataOpt => createExistingSessionModel hmac cfg st σ0 sid dataOpt

/-- A concrete configuration used to instantiate the orchestration claims. -/
def toyConfig (saveUninit : Bool) : SessionConfig (List Char) where
  name := "connect.sid".toList
  genid := "fresh-id".toList
  generate := "fresh-data".toList
  cookie := ⟨"/".toList, none, true, true, none⟩
  saveUninitialized := saveUninit
  secret := Sum.inl "mySecret".toList

/-! ### The reference store adapter (`UnstorageSessionStore`) -/

/-- TTL configuration of `UnstorageSessionStore`: a fixed number of seconds
or a function of the session data. -/
inductive TTLSetting (D : Type) where
  | fixed (n : Int)
  | ofData (f : D → Int)

/-- The generic key-value storage engine behind `UnstorageSessionStore`
(unstorage), modelled as an association list of key, value and the TTL passed
to `setItem`. -/
def StorageModel (D : Type) : Type := List (List Char × D × Int)

/-- `storage.setItem(key, value, { ttl })`. -/
def storageSetItem {D : Type} (σ0 : StorageModel D) (k : List Char) (v : D)
    (ttl : Int) : StorageModel D :=
  σ0.filter (fun e => e.1 ≠ k) ++ [(k, v, ttl)]

/-- `storage.removeItem(key)`. -/
def storageRemoveItem {D : Type} (σ0 : StorageModel D) (k : List Char) :
    StorageModel D :=
  σ0.filter (fun e => e.1 ≠ k)

/-- `storage.getItem(key)`, value only. -/
def storageGetItem {D : Type} (σ0 : StorageModel D) (k : List Char) : Option D :=
  (σ0.find? (fun e => e.1 = k)).map (fun e => e.2.1)

/-- The stored value together with the TTL it was stored with. -/
def storageGetEntry {D : Type} (σ0 : StorageModel D) (k : List Char) :
    Option (D × Int) :=
  (σ0.find? (fun e => e.1 = k)).map (fun e => e.2)

/-- `UnstorageSessionStore` configuration: the key namespace (the `prefix`
option, default `sess`) and the TTL policy. -/
structure UnstorageStoreModel (D : Type) where
  prefixKey : List Char
  ttl : TTLSetting D

/-- `getKey`: `[this.prefix, key].join(':')`. -/
def ussGetKey {D : Type} (s : UnstorageStoreModel D) (sid : List Char) : List Char :=
  s.prefixKey ++ ':' :: sid

/-- `getTTL` (`unstorage-store.ts`): the TTL function applied to the session
data, or the fixed configured number. -/
def ussGetTTL {D : Type} (s : UnstorageStoreModel D) (data : D) : Int :=
  match s.ttl with
  | TTLSetting.fixed n => n
  | TTLSetting.ofData f => f data

/-- `UnstorageSessionStore.destroy`: remove the prefixed key. -/
def ussDestroy {D : Type} (s : UnstorageStoreModel D) (σ0 : StorageModel D)
    (sid : List Char) : StorageModel D :=
  storageRemoveItem σ0 (ussGetKey s sid)

/-- `UnstorageSessionStore.set` (`unstorage-store.ts`): compute the effective
TTL; if it is positive, store the data under the prefixed key with that TTL,
otherwise delegate to `destroy`. -/
def ussSet {D : Type} (s : UnstorageStoreModel D) (σ0 : StorageModel D)
    (sid : List Char) (data : D) : StorageModel D :=
  if ussGetTTL s data > 0 then
    storageSetItem σ0 (ussGetKey s sid) data (ussGetTTL s data)
  else
    ussDestroy s σ0 sid

/-- `UnstorageSessionStore.get`: `getItem ?? undefined`. -/
def ussGet {D : Type} (s : UnstorageStoreModel D) (σ0 : StorageModel D)
    (sid : List Char) : Option D :=
  storageGetItem σ0 (ussGetKey s sid)

/-- A store configured with a TTL function returning `0`, mirroring the
repository's test "should remove the item if the ttl is zero". -/
def zeroTTLStore : UnstorageStoreModel (List Char) :=
  ⟨"sess".toList, TTLSetting.ofData (fun _ => 0)⟩

/-- A store configured with the fixed TTL `12345`, mirroring the test
"should pass the configured TTL to setItem". -/
def fixedTTLStore : UnstorageStoreModel (List Char) :=
  ⟨"sess".toList, TTLSetting.fixed 12345⟩

/-! ### Helper lemmas about the base64 codec -/

theorem b64Alphabet_length : b64Alphabet.length = 64 := by decide

theorem b64Char_ne_padEq (n : Nat) : b64Char n ≠ '=' := by
  by_cases h : n < 64
  · have hall : ∀ m, m < 64 → b64Char m ≠ '=' := by decide
    exact hall n h
  · unfold b64Char
    rw [List.getD_eq_default]
    · decide
    · rw [b64Alphabet_length]; omega

theorem b64Value_b64Char (n : Nat) (h : n < 64) : b64Value (b64Char n) = n := by
  revert h
  revert n
  decide

theorem stripEq_ne_nil (l : List Char) (c : Char) (hc : c ∈ l) (hne : c ≠ '=') :
    stripEq l ≠ [] := by
  intro h
  have h2 : l.reverse.dropWhile (fun c => c = '=') = [] := by
    have := congrArg List.reverse h
    simpa [stripEq] using this
  rw [List.dropWhile_eq_nil_iff] at h2
  have h3 := h2 c (by simpa using hc)
  simp at h3
  exact hne h3

theorem stripEq_append (l1 l2 : List Char) (h : stripEq l2 ≠ []) :
    stripEq (l1 ++ l2) = l1 ++ stripEq l2 := by
  have hne : (l2.reverse.dropWhile (fun c => c = '=')).isEmpty = false := by
    cases hdw : l2.reverse.dropWhile (fun c => c = '=') with
    | nil => exact absurd (by simp [stripEq, hdw]) h
    | cons a t => simp
  simp only [stripEq, List.reverse_append, List.dropWhile_append, hne]
  simp

theorem stripEq_three (x1 x2 x3 : Char) (h3 : x3 ≠ '=') :
    stripEq [x1, x2, x3, '='] = [x1, x2, x3] := by
  simp [stripEq, List.dropWhile_cons, h3]

theorem stripEq_two (x1 x2 : Char) (h2 : x2 ≠ '=') :
    stripEq [x1, x2, '=', '='] = [x1, x2] := by
  simp [stripEq, List.dropWhile_cons, h2]

theorem base64EncodeCore_cons_head (r1 r2 : Nat) (rs : List Nat) :
    ∃ t, base64EncodeCore (r1 :: r2 :: rs) = b64Char (r1 / 4) :: t := by
  cases rs with
  | nil => exact ⟨_, rfl⟩
  | cons r3 rr => exact ⟨_, rfl⟩

theorem stripEq_encodeCore_ne_nil (r1 r2 : Nat) (rs : List Nat) :
    stripEq (base64EncodeCore (r1 :: r2 :: rs)) ≠ [] := by
  obtain ⟨t, ht⟩ := base64EncodeCore_cons_head r1 r2 rs
  rw [ht]
  exact stripEq_ne_nil _ (b64Char (r1 / 4)) (by simp) (b64Char_ne_padEq _)

/-- Base64 decoding inverts the unpadded base64 encoding on byte lists whose
length is `≡ 2 [MOD 3]` (in particular on 32-byte HMAC-SHA256 digests). -/
theorem base64Decode_base64Encode (d : List Nat) (hb : ∀ b ∈ d, b < 256)
    (hl : d.length % 3 = 2) : base64Decode (base64Encode d) = d := by
  induction d using base64EncodeCore.induct with
  | case1 => simp at hl
  | case2 b1 => simp at hl
  | case3 b1 b2 =>
    have h1 : b1 < 256 := hb b1 (by simp)
    have h2 : b2 < 256 := hb b2 (by simp)
    have hv1 : b1 / 4 < 64 := by omega
    have hv2 : b1 % 4 * 16 + b2 / 16 < 64 := by omega
    have hv3 : b2 % 16 * 4 < 64 := by omega
    rw [base64Encode, show base64EncodeCore [b1, b2] =
        [b64Char (b1 / 4), b64Char (b1 % 4 * 16 + b2 / 16), b64Char (b2 % 16 * 4), '='] from rfl,
      stripEq_three _ _ _ (b64Char_ne_padEq _)]
    show [b64Value (b64Char (b1 / 4)) * 4 + b64Value (b64Char (b1 % 4 * 16 + b2 / 16)) / 16,
        b64Value (b64Char (b1 % 4 * 16 + b2 / 16)) % 16 * 16 + b64Value (b64Char (b2 % 16 * 4)) / 4]
      = [b1, b2]
    rw [b64Value_b64Char _ hv1, b64Value_b64Char _ hv2, b64Value_b64Char _ hv3]
    have e1 : b1 / 4 * 4 + (b1 % 4 * 16 + b2 / 16) / 16 = b1 := by omega
    have e2 : (b1 % 4 * 16 + b2 / 16) % 16 * 16 + b2 % 16 * 4 / 4 = b2 := by omega
    rw [e1, e2]
  | case4 b1 b2 b3 rest ih =>
    have h1 : b1 < 256 := hb b1 (by simp)
    have h2 : b2 < 256 := hb b2 (by simp)
    have h3 : b3 < 256 := hb b3 (by simp)
    have hrest : ∀ b ∈ rest, b < 256 := fun b hmem => hb b (by simp [hmem])
    have hlrest : rest.length % 3 = 2 := by
      simp only [List.length_cons] at hl
      omega
    have ihr := ih hrest hlrest
    -- rest has length ≡ 2 [MOD 3], hence at least two elements
    obtain ⟨r1, r2, rs, hrw⟩ : ∃ r1 r2 rs, rest = r1 :: r2 :: rs := by
      match rest, hlrest with
      | r1 :: r2 :: rs, _ => exact ⟨r1, r2, rs, rfl⟩
    have hv1 : b1 / 4 < 64 := by omega
    have hv2 : b1 % 4 * 16 + b2 / 16 < 64 := by omega
    have hv3 : b2 % 16 * 4 + b3 / 64 < 64 := by omega
    have hv4 : b3 % 64 < 64 := by omega
    rw [base64Encode, show base64EncodeCore (b1 :: b2 :: b3 :: rest) =
        [b64Char (b1 / 4), b64Char (b1 % 4 * 16 + b2 / 16), b64Char (b2 % 16 * 4 + b3 / 64),
          b64Char (b3 % 64)] ++ base64EncodeCore rest from rfl,
      stripEq_append _ _ (hrw ▸ stripEq_encodeCore_ne_nil r1 r2 rs)]
    show base64Decode (b64Char (b1 / 4) :: b64Char (b1 % 4 * 16 + b2 / 16) ::
        b64Char (b2 % 16 * 4 + b3 / 64) :: b64Char (b3 % 64) :: stripEq (base64EncodeCore rest)) =
      b1 :: b2 :: b3 :: rest
    rw [base64Decode]
    rw [b64Value_b64Char _ hv1, b64Value_b64Char _ hv2, b64Value_b64Char _ hv3,
      b64Value_b64Char _ hv4]
    have e1 : b1 / 4 * 4 + (b1 % 4 * 16 + b2 / 16) / 16 = b1 := by omega
    have e2 : (b1 % 4 * 16 + b2 / 16) % 16 * 16 + (b2 % 16 * 4 + b3 / 64) / 4 = b2 := by omega
    have e3 : (b2 % 16 * 4 + b3 / 64) % 4 * 64 + b3 % 64 = b3 := by omega
    rw [e1, e2, e3, show stripEq (base64EncodeCore rest) = base64Encode rest from rfl, ihr]

/-- The unpadded base64 encoding of a byte list of length `≡ 2 [MOD 3]` has
length `4 * (n / 3) + 3`; for a 32-byte digest this is the fixed
`signatureLength = 43`. -/
theorem base64Encode_length (d : List Nat) (hl : d.length % 3 = 2) :
    (base64Encode d).length = 4 * (d.length / 3) + 3 := by
  induction d using base64EncodeCore.induct with
  | case1 => simp at hl
  | case2 b1 => simp at hl
  | case3 b1 b2 =>
    rw [base64Encode, show base64EncodeCore [b1, b2] =
        [b64Char (b1 / 4), b64Char (b1 % 4 * 16 + b2 / 16), b64Char (b2 % 16 * 4), '='] from rfl,
      stripEq_three _ _ _ (b64Char_ne_padEq _)]
    simp
  | case4 b1 b2 b3 rest ih =>
    have hlrest : rest.length % 3 = 2 := by
      simp only [List.length_cons] at hl
      omega
    obtain ⟨r1, r2, rs, hrw⟩ : ∃ r1 r2 rs, rest = r1 :: r2 :: rs := by
      match rest, hlrest with
      | r1 :: r2 :: rs, _ => exact ⟨r1, r2, rs, rfl⟩
    rw [base64Encode, show base64EncodeCore (b1 :: b2 :: b3 :: rest) =
        [b64Char (b1 / 4), b64Char (b1 % 4 * 16 + b2 / 16), b64Char (b2 % 16 * 4 + b3 / 64),
          b64Char (b3 % 64)] ++ base64EncodeCore rest from rfl,
      stripEq_append _ _ (hrw ▸ stripEq_encodeCore_ne_nil r1 r2 rs)]
    have ihr := ih hlrest
    rw [base64Encode] at ihr
    simp only [List.length_append, List.length_cons, List.length_nil, ihr]
    omega

/-! ### Parsing signed cookie values -/

/-- A well-formed signed value `s:<v>.<sig>` with a 43-character signature
parses back into the identifier and signature, for every identifier `v`,
including identifiers containing `.` or `:` — the separator is anchored from
the end of the string. -/
theorem parseCookieValue_signed (v sig : List Char) (hsig : sig.length = 43) :
    parseCookieValue ('s' :: ':' :: (v ++ '.' :: sig)) = some (v, sig) := by
  have hlen : ('s' :: ':' :: (v ++ '.' :: sig)).length = v.length + 46 := by
    simp [hsig]
  have hg2 : (('s' :: ':' :: (v ++ '.' :: sig)) : List Char).getD (v.length + 2) ' ' = '.' := by
    rw [show v.length + 2 = v.length + 1 + 1 from rfl, List.getD_cons_succ, List.getD_cons_succ,
      List.getD_append_right v _ ' ' v.length (le_refl _)]
    simp
  have htake : ((('s' :: ':' :: (v ++ '.' :: sig)) : List Char).take (v.length + 2)).drop 2 = v := by
    rw [show v.length + 2 = v.length + 1 + 1 from rfl, List.take_succ_cons, List.take_succ_cons]
    rw [show (v ++ '.' :: sig).take v.length = (v ++ '.' :: sig).take v.length from rfl]
    have : (v ++ '.' :: sig).take v.length = v := by
      simp
    rw [this]
    rfl
  have hdrop : (('s' :: ':' :: (v ++ '.' :: sig)) : List Char).drop (v.length + 2 + 1) = sig := by
    rw [show v.length + 2 + 1 = v.length + 1 + 1 + 1 from rfl, List.drop_succ_cons,
      List.drop_succ_cons]
    have : v ++ '.' :: sig = (v ++ ['.']) ++ sig := by simp
    rw [this, show v.length + 1 = (v ++ ['.']).length from by simp, List.drop_left]
  rw [parseCookieValue]
  rw [if_neg (by rw [hlen, signatureLength]; omega)]
  have hsep : ('s' :: ':' :: (v ++ '.' :: sig)).length - signatureLength - 1 = v.length + 2 := by
    rw [hlen, signatureLength]
    omega
  rw [if_neg]
  · rw [hsep, htake, hdrop]
  · rw [hsep]
    push_neg
    exact ⟨rfl, rfl, hg2⟩

/-! ### The verification loop -/

theorem verifyLoop_of_mem (hmac : List Char → List Char → List Nat) (d : List Nat)
    (v : List Char) (S : List (List Char)) (hex : ∃ t ∈ S, hmac t v = d) :
    verifyLoop hmac d v S = some v := by
  induction S with
  | nil => simp at hex
  | cons s rest ih =>
    rw [verifyLoop]
    by_cases h : hmac s v = d
    · rw [if_pos h]
    · rw [if_neg h]
      apply ih
      obtain ⟨t, htm, htd⟩ := hex
      rcases List.mem_cons.mp htm with heq | hmem
      · exact absurd (heq ▸ htd) h
      · exact ⟨t, hmem, htd⟩

theorem verifyLoop_of_no_match (hmac : List Char → List Char → List Nat) (d : List Nat)
    (v : List Char) (S : List (List Char)) (hall : ∀ t ∈ S, hmac t v ≠ d) :
    verifyLoop hmac d v S = none := by
  induction S with
  | nil => rfl
  | cons s rest ih =>
    rw [verifyLoop, if_neg (hall s (List.mem_cons_self s rest))]
    exact ih fun t htm => hall t (List.mem_cons_of_mem s htm)

/-! ### Claims C1-C3: the cookie signer/verifier -/

/-- C1: for every non-empty identifier `v` (including identifiers containing
`.` or `:`) and non-empty secret `s`, `unsignCookie (signCookie v s) [s]`
returns `v`: parsing anchors the separator from the end of the string at the
fixed 43-character signature length.  The hypotheses `hlen` and `hbytes`
record that the abstract `hmac` is an HMAC-SHA256 digest (32 bytes, each
`< 256`). -/
theorem unsignCookie_signCookie_roundtrip (hmac : List Char → List Char → List Nat)
    (v s : List Char) (hv : v ≠ []) (hs : s ≠ [])
    (hlen : (hmac s v).length = 32) (hbytes : ∀ b ∈ hmac s v, b < 256) :
    (signCookie hmac v s).toOption.bind (fun w => unsignCookie hmac w [s]) = some v := by
  have h32 : (hmac s v).length % 3 = 2 := by simp [hlen]
  have hsl : (base64Encode (hmac s v)).length = 43 := by
    rw [base64Encode_length _ h32, hlen]
  rw [signCookie, if_neg hv, if_neg hs]
  show unsignCookie hmac ('s' :: ':' :: (v ++ '.' :: base64Encode (hmac s v))) [s] = some v
  rw [unsignCookie, parseCookieValue_signed v _ hsl]
  show verifyLoop hmac (base64Decode (base64Encode (hmac s v))) v [s] = some v
  rw [base64Decode_base64Encode _ hbytes h32, verifyLoop, if_pos rfl]

/-- C1 witness: a concrete identifier containing both `.` and `:` round-trips
through `signCookie` and `unsignCookie`. -/
theorem unsignCookie_signCookie_roundtrip_witness :
    (signCookie hmacToy "a.b:c".toList "mySecret".toList).toOption.bind
      (fun w => unsignCookie hmacToy w ["mySecret".toList]) = some "a.b:c".toList :=
  unsignCookie_signCookie_roundtrip hmacToy "a.b:c".toList "mySecret".toList
    (by decide) (by decide) (by decide) (by decide)

/-- C2: for a non-empty value `v` and signing secret `s`, if `s` occurs in the
ordered secret list `S` then verification returns `v` (the scan returns the
identifier on the first HMAC match); if no secret in `S` produces the digest
that `s` produced when signing (in particular, with collision-free HMAC, if no
element of `S` equals `s`), verification returns `none` (JS `false`). -/
theorem unsignCookie_secret_list (hmac : List Char → List Char → List Nat)
    (v s : List Char) (S : List (List Char)) (hv : v ≠ []) (hs : s ≠ [])
    (hlen : (hmac s v).length = 32) (hbytes : ∀ b ∈ hmac s v, b < 256) :
    (s ∈ S →
      (signCookie hmac v s).toOption.bind (fun w => unsignCookie hmac w S) = some v) ∧
    ((∀ t ∈ S, hmac t v ≠ hmac s v) →
      (signCookie hmac v s).toOption.bind (fun w => unsignCookie hmac w S) = none) := by
  have h32 : (hmac s v).length % 3 = 2 := by simp [hlen]
  have hsl : (base64Encode (hmac s v)).length = 43 := by
    rw [base64Encode_length _ h32, hlen]
  constructor
  · intro hmem
    rw [signCookie, if_neg hv, if_neg hs]
    show unsignCookie hmac ('s' :: ':' :: (v ++ '.' :: base64Encode (hmac s v))) S = some v
    rw [unsignCookie, parseCookieValue_signed v _ hsl]
    show verifyLoop hmac (base64Decode (base64Encode (hmac s v))) v S = some v
    rw [base64Decode_base64Encode _ hbytes h32]
    exact verifyLoop_of_mem hmac _ v S ⟨s, hmem, rfl⟩
  · intro hall
    rw [signCookie, if_neg hv, if_neg hs]
    show unsignCookie hmac ('s' :: ':' :: (v ++ '.' :: base64Encode (hmac s v))) S = none
    rw [unsignCookie, parseCookieValue_signed v _ hsl]
    show verifyLoop hmac (base64Decode (base64Encode (hmac s v))) v S = none
    rw [base64Decode_base64Encode _ hbytes h32]
    exact verifyLoop_of_no_match hmac _ v S hall

/-- C2 witness: with the concrete digest function, a cookie signed with
`mySecret` verifies against a rotation list containing `mySecret`, and fails
against a list whose secrets all produce different digests. -/
theorem unsignCookie_secret_list_witness :
    ((signCookie hmacToy "uid42".toList "mySecret".toList).toOption.bind
      (fun w => unsignCookie hmacToy w
        ["old".toList, "mySecret".toList, "newer".toList]) = some "uid42".toList) ∧
    ((signCookie hmacToy "uid42".toList "mySecret".toList).toOption.bind
      (fun w => unsignCookie hmacToy w ["a".toList, "bc".toList]) = none) :=
  ⟨(unsignCookie_secret_list hmacToy "uid42".toList "mySecret".toList
      ["old".toList, "mySecret".toList, "newer".toList]
      (by decide) (by decide) (by decide) (by decide)).1 (by decide),
   (unsignCookie_secret_list hmacToy "uid42".toList "mySecret".toList
      ["a".toList, "bc".toList]
      (by decide) (by decide) (by decide) (by decide)).2 (by decide)⟩

/-- C3: every input that is not of the shape `s:<id>.<43-char signature>` —
shorter than 46 characters, not starting with `s:`, or lacking `.` at position
`length - 44` — makes `unsignCookie` return `none` (JS `false`) for every
secret list and every digest function; `unsignCookie` is a total function, so
it never throws on such input. -/
theorem unsignCookie_malformed (hmac : List Char → List Char → List Nat)
    (value : List Char) (secrets : List (List Char))
    (h : value.length < 46 ∨ value.getD 0 ' ' ≠ 's' ∨ value.getD 1 ' ' ≠ ':' ∨
      value.getD (value.length - 44) ' ' ≠ '.') :
    unsignCookie hmac value secrets = none := by
  have hparse : parseCookieValue value = none := by
    rw [parseCookieValue]
    rcases h with h | h
    · rw [if_pos (by rw [signatureLength]; omega)]
    · by_cases hlen : value.length < signatureLength + 3
      · rw [if_pos hlen]
      · rw [if_neg hlen, if_pos]
        have hix : value.length - signatureLength - 1 = value.length - 44 := by
          rw [signatureLength]; omega
        rw [hix]
        exact h
  rw [unsignCookie, hparse]

/-- C3 witness: the malformed inputs from the repository's own test file
(`"s"`, random text, a value missing the 43-character trailing signature)
all verify to `none`. -/
theorem unsignCookie_malformed_witness :
    unsignCookie hmacToy "s".toList ["mySecret".toList] = none ∧
    unsignCookie hmacToy "hello!!!!".toList ["mySecret".toList] = none ∧
    unsignCookie hmacToy "s:ahskdjfhaskhdfkjashdkfhsaasdfsadkfjaaasdfksdjf".toList
      ["mySecret".toList] = none :=
  ⟨unsignCookie_malformed hmacToy _ _ (Or.inl (by decide)),
   unsignCookie_malformed hmacToy _ _ (Or.inl (by decide)),
   unsignCookie_malformed hmacToy _ _ (Or.inr (Or.inr (Or.inr (by decide))))⟩

/-! ### Association-list lemmas -/

theorem find?_key_filter_ne {β : Type} (l : List (List Char × β)) (k : List Char) :
    (l.filter (fun e => e.1 ≠ k)).find? (fun e => e.1 = k) = none := by
  rw [List.find?_eq_none]
  intro x hx
  have hmem := List.mem_filter.mp hx
  simpa using hmem.2

theorem find?_key_set {β : Type} (l : List (List Char × β)) (k : List Char) (b : β) :
    (l.filter (fun e => e.1 ≠ k) ++ [(k, b)]).find? (fun e => e.1 = k) = some (k, b) := by
  rw [List.find?_append, find?_key_filter_ne]
  simp [List.find?]

theorem mapGet_mapSet_self {D : Type} (m : List (List Char × D)) (k : List Char) (v : D) :
    mapGet (mapSet m k v) k = some v := by
  rw [mapGet, mapSet, find?_key_set]
  rfl

theorem mapGet_mapErase_self {D : Type} (m : List (List Char × D)) (k : List Char) :
    mapGet (mapErase m k) k = none := by
  rw [mapGet, mapErase, find?_key_filter_ne]
  rfl

theorem storageGetEntry_setItem_self {D : Type} (σ0 : StorageModel D) (k : List Char)
    (v : D) (ttl : Int) : storageGetEntry (storageSetItem σ0 k v ttl) k = some (v, ttl) := by
  rw [storageGetEntry, storageSetItem, find?_key_set]
  rfl

theorem storageGetItem_removeItem_self {D : Type} (σ0 : StorageModel D) (k : List Char) :
    storageGetItem (storageRemoveItem σ0 k) k = none := by
  rw [storageGetItem, storageRemoveItem, find?_key_filter_ne]
  rfl

/-! ### Claim C4: mutating `name`/`path`/`domain` on the cookie proxy -/

/-- C4: evaluating the cookie proxy's `set` trap at the failing input.
Assigning `path` (and likewise `name` and `domain`) after construction
SUCCEEDS: the trap returns `true` (in JS, no error is thrown), the target is
updated, and the `Set-Cookie` header is re-emitted (the emission log grows and
its last entry carries the new path).  This contradicts the claim — and the
repository's own test (`index.test.ts`, "should not allow updating the cookie
name, path or domain") and CHANGELOG 0.6.1, which require an error and an
unchanged header. -/
theorem cookieProxySet_path_write_succeeds :
    (cookieProxySet initialCookieProxyState "path".toList "/foo".toList).2 = true ∧
    lookupProp (cookieProxySet initialCookieProxyState "path".toList "/foo".toList).1.target
      "path".toList = some "/foo".toList ∧
    (cookieProxySet initialCookieProxyState "path".toList "/foo".toList).1.emitted.length
      = initialCookieProxyState.emitted.length + 1 ∧
    (cookieProxySet initialCookieProxyState "name".toList "other".toList).2 = true ∧
    (cookieProxySet initialCookieProxyState "domain".toList "example.com".toList).2 = true := by
  refine ⟨rfl, by decide, rfl, rfl, rfl⟩

/-! ### Claim C8: `UnstorageSessionStore.set` TTL policy -/

/-- C8: for every session id and data value, `UnstorageSessionStore.set` with
an effective TTL (fixed number, or the TTL function applied to the data) that
is `≤ 0` delegates to `destroy` — it removes the prefixed key and writes
nothing, so the key is afterwards absent; with a positive effective TTL, the
data is stored under `prefix:id` with that TTL. -/
theorem unstorageSet_ttl {D : Type} (s : UnstorageStoreModel D) (σ0 : StorageModel D)
    (sid : List Char) (data : D) :
    (ussGetTTL s data ≤ 0 →
      ussSet s σ0 sid data = ussDestroy s σ0 sid ∧
      ussGet s (ussSet s σ0 sid data) sid = none) ∧
    (0 < ussGetTTL s data →
      storageGetEntry (ussSet s σ0 sid data) (ussGetKey s sid) =
        some (data, ussGetTTL s data)) := by
  constructor
  · intro h
    have hng : ¬ussGetTTL s data > 0 := by omega
    rw [ussSet, if_neg hng]
    exact ⟨rfl, by rw [ussGet, ussDestroy, storageGetItem_removeItem_self]⟩
  · intro h
    rw [ussSet, if_pos h, storageGetEntry_setItem_self]

/-- C8 witness: a TTL function returning `0` leaves the key absent (matching
the repository's test "should remove the item if the ttl is zero"); the fixed
TTL `12345` stores the entry with that TTL under `sess:123`. -/
theorem unstorageSet_ttl_witness :
    (ussSet zeroTTLStore [] "123".toList "bar".toList =
        ussDestroy zeroTTLStore [] "123".toList ∧
      ussGet zeroTTLStore (ussSet zeroTTLStore [] "123".toList "bar".toList)
        "123".toList = none) ∧
    storageGetEntry (ussSet fixedTTLStore [] "123".toList "bar".toList)
      (ussGetKey fixedTTLStore "123".toList) = some ("bar".toList, 12345) :=
  ⟨(unstorageSet_ttl zeroTTLStore [] "123".toList "bar".toList).1 (by decide),
   (unstorageSet_ttl fixedTTLStore [] "123".toList "bar".toList).2 (by decide)⟩

/-! ### Claim C9: `Session.destroy` frame -/

/-- C9: `Session.destroy` sets the cookie descriptor's `maxAge` to `0` and
calls the store's `destroy` with the current identifier (for the reference
map store this removes the entry, so a subsequent `get` yields nothing) —
and changes nothing else on the entity: the in-memory data, the identifier
and every other cookie attribute are unchanged. -/
theorem sessionDestroy_frame {D : Type} (s : SessionModel D)
    (σ0 : List (List Char × D)) :
    (sessionDestroy (mapStore D) s σ0).1.id = s.id ∧
    (sessionDestroy (mapStore D) s σ0).1.data = s.data ∧
    (sessionDestroy (mapStore D) s σ0).1.cookie.maxAge = 0 ∧
    (sessionDestroy (mapStore D) s σ0).1.cookie.path = s.cookie.path ∧
    (sessionDestroy (mapStore D) s σ0).1.cookie.domain = s.cookie.domain ∧
    (sessionDestroy (mapStore D) s σ0).1.cookie.httpOnly = s.cookie.httpOnly ∧
    (sessionDestroy (mapStore D) s σ0).1.cookie.secure = s.cookie.secure ∧
    (sessionDestroy (mapStore D) s σ0).2 = Except.ok (mapErase σ0 s.id) ∧
    mapGet (mapErase σ0 s.id) s.id = none :=
  ⟨rfl, rfl, rfl, rfl, rfl, rfl, rfl, rfl, mapGet_mapErase_self σ0 s.id⟩

/-! ### Claim C10: the one-day `maxAge` default is applied to every falsy value -/

/-- C10: at cookie construction time a configured `maxAge` of `0` — like
every falsy configured value (`null`/absent) — is replaced by the one-day
default `86400`, because the default is applied with the falsy-or `||`; the
constructed cookie never carries `maxAge = 0`, so a zero `maxAge` can only
arise from a later mutation of the descriptor (such as `destroy()`), never
from configuration. -/
theorem cookieFromConfig_maxAge (c : CookieConfig) :
    (cookieFromConfig c).maxAge ≠ 0 ∧
    ((c.maxAge = some 0 ∨ c.maxAge = none) → (cookieFromConfig c).maxAge = 86400) ∧
    (∀ n : Int, n ≠ 0 → c.maxAge = some n → (cookieFromConfig c).maxAge = n) := by
  refine ⟨?_, ?_, ?_⟩
  · show jsOrNum c.maxAge (60 * 60 * 24) ≠ 0
    cases hm : c.maxAge with
    | none => decide
    | some x =>
      show (if x = 0 then (60 * 60 * 24 : Int) else x) ≠ 0
      by_cases hx : x = 0
      · rw [if_pos hx]; decide
      · rw [if_neg hx]; exact hx
  · intro h
    rcases h with h | h <;> simp [cookieFromConfig, jsOrNum, h]
  · intro n hn hc
    simp [cookieFromConfig, jsOrNum, hc, hn]

/-- C10 witness: an explicitly configured `maxAge: 0` produces the one-day
default, not a zero max-age. -/
theorem cookieFromConfig_maxAge_witness :
    (cookieFromConfig ⟨"/".toList, none, true, true, some 0⟩).maxAge = 86400 ∧
    (cookieFromConfig ⟨"/".toList, none, true, true, some 0⟩).maxAge ≠ 0 :=
  ⟨(cookieFromConfig_maxAge ⟨"/".toList, none, true, true, some 0⟩).2.1 (Or.inl rfl),
   (cookieFromConfig_maxAge ⟨"/".toList, none, true, true, some 0⟩).1⟩

/-! ### Claims C5-C7: the orchestrator -/

/-- C5: when the request carries a cookie that verifies to a (truthy)
identifier and `store.get` fails for that identifier, `useSession` propagates
the storage error to its caller: the result is exactly that error — no fresh
session is created and nothing is attached to the request context (the error
result carries no `UseSessionResult`). -/
theorem useSession_propagates_get_error (hmac : List Char → List Char → List Nat)
    {σ D E : Type} (cfg : SessionConfig D) (st : StoreModel σ D E) (σ0 : σ)
    (raw sid : List Char) (e : E)
    (hsecret : secretMissing cfg.secret = false)
    (hunsign : unsignCookie hmac raw (normalizeSecret cfg.secret) = some sid)
    (hsid : sid ≠ [])
    (hget : st.get σ0 sid = Except.error e) :
    useSessionModel hmac cfg st σ0 false (some raw) =
      Except.error (SessionError.storeError e) := by
  have hempty : sid.isEmpty = false := by
    cases sid with
    | nil => exact absurd rfl hsid
    | cons a t => rfl
  rw [useSessionModel]
  simp only [Bool.false_eq_true, if_false, hsecret, hunsign, hempty, hget]

/-- C5 witness: a validly signed cookie together with a store whose backend
fails on `get` makes `useSession` fail with that very storage error. -/
theorem useSession_propagates_get_error_witness :
    useSessionModel hmacToy (toyConfig false) (failingGetStore (List Char)) () false
      (some ('s' :: ':' :: ("uid1".toList ++ '.' ::
        base64Encode (hmacToy "mySecret".toList "uid1".toList)))) =
      Except.error (SessionError.storeError "backend unavailable".toList) :=
  useSession_propagates_get_error hmacToy (toyConfig false) (failingGetStore (List Char))
    () ('s' :: ':' :: ("uid1".toList ++ '.' ::
      base64Encode (hmacToy "mySecret".toList "uid1".toList)))
    "uid1".toList "backend unavailable".toList
    (by decide) (by decide) (by decide) (by decide)

/-- C6: when the request bears a validly signed cookie whose identifier has
no stored data (`store.get` returns `undefined`), `useSession` builds the
session under that same identifier: the attached session and
`context.sessionId` carry the cookie's identifier — not a freshly generated
one — paired with freshly generated data, and the newly signed cookie signs
that same identifier. -/
theorem useSession_reuses_cookie_id (hmac : List Char → List Char → List Nat)
    {σ D E : Type} (cfg : SessionConfig D) (st : StoreModel σ D E) (σ0 : σ)
    (raw sid ls : List Char)
    (hsecret : secretMissing cfg.secret = false)
    (hunsign : unsignCookie hmac raw (normalizeSecret cfg.secret) = some sid)
    (hsid : sid ≠ [])
    (hget : st.get σ0 sid = Except.ok none)
    (hls : (normalizeSecret cfg.secret).getLastD [] = ls) (hlsne : ls ≠ []) :
    useSessionModel hmac cfg st σ0 false (some raw) =
      Except.ok (some ⟨⟨sid, cfg.generate, cookieFromConfig cfg.cookie⟩, sid,
        's' :: ':' :: (sid ++ '.' :: base64Encode (hmac ls sid)), σ0⟩) := by
  have hempty : sid.isEmpty = false := by
    cases sid with
    | nil => exact absurd rfl hsid
    | cons a t => rfl
  have hbuild : buildSessionCookie hmac cfg sid =
      Except.ok (cookieFromConfig cfg.cookie,
        's' :: ':' :: (sid ++ '.' :: base64Encode (hmac ls sid))) := by
    rw [buildSessionCookie, hls, signCookie, if_neg hsid, if_neg hlsne]
  have htouch : touchStepModel st σ0 sid (none : Option D) = Except.ok σ0 := rfl
  rw [useSessionModel]
  simp only [Bool.false_eq_true, if_false, hsecret, hunsign, hempty, hget]
  rw [createExistingSessionModel, hbuild, htouch]
  rfl

/-- C6 witness: against the empty map store, a signed cookie for `uid1`
yields a session whose identifier and signed cookie are for `uid1`, paired
with the generator's data. -/
theorem useSession_reuses_cookie_id_witness :
    useSessionModel hmacToy (toyConfig false) (mapStore (List Char)) [] false
      (some ('s' :: ':' :: ("uid1".toList ++ '.' ::
        base64Encode (hmacToy "mySecret".toList "uid1".toList)))) =
      Except.ok (some ⟨⟨"uid1".toList, "fresh-data".toList,
        cookieFromConfig (toyConfig false).cookie⟩, "uid1".toList,
        's' :: ':' :: ("uid1".toList ++ '.' ::
          base64Encode (hmacToy "mySecret".toList "uid1".toList)), []⟩) :=
  useSession_reuses_cookie_id hmacToy (toyConfig false) (mapStore (List Char)) []
    ('s' :: ':' :: ("uid1".toList ++ '.' ::
      base64Encode (hmacToy "mySecret".toList "uid1".toList)))
    "uid1".toList "mySecret".toList
    (by decide) (by decide) (by decide) (by decide) (by decide) (by decide)

/-- C7: when `useSession` creates a brand-new session (no cookie, hence no
valid identifier), with `saveUninitialized := false` the store is left
untouched — the fresh identifier has no entry until `save()` is explicitly
called, which stores exactly the session data — while with
`saveUninitialized := true` the generated data is persisted immediately and
the stored value equals the data generator's output. -/
theorem useSession_saveUninitialized (hmac : List Char → List Char → List Nat)
    {D : Type} (cfg : SessionConfig D) (σ0 : List (List Char × D)) (ls : List Char)
    (hsecret : secretMissing cfg.secret = false)
    (hgen : cfg.genid ≠ [])
    (hls : (normalizeSecret cfg.secret).getLastD [] = ls) (hlsne : ls ≠ [])
    (hfresh : mapGet σ0 cfg.genid = none) :
    (useSessionModel hmac { cfg with saveUninitialized := false } (mapStore D) σ0
        false none =
      Except.ok (some ⟨⟨cfg.genid, cfg.generate, cookieFromConfig cfg.cookie⟩,
        cfg.genid, 's' :: ':' :: (cfg.genid ++ '.' :: base64Encode (hmac ls cfg.genid)),
        σ0⟩)) ∧
    mapGet σ0 cfg.genid = none ∧
    sessionSave (mapStore D) ⟨cfg.genid, cfg.generate, cookieFromConfig cfg.cookie⟩ σ0 =
      Except.ok (mapSet σ0 cfg.genid cfg.generate) ∧
    mapGet (mapSet σ0 cfg.genid cfg.generate) cfg.genid = some cfg.generate ∧
    (useSessionModel hmac { cfg with saveUninitialized := true } (mapStore D) σ0
        false none =
      Except.ok (some ⟨⟨cfg.genid, cfg.generate, cookieFromConfig cfg.cookie⟩,
        cfg.genid, 's' :: ':' :: (cfg.genid ++ '.' :: base64Encode (hmac ls cfg.genid)),
        mapSet σ0 cfg.genid cfg.generate⟩)) := by
  have hbuild : ∀ b : Bool, buildSessionCookie hmac { cfg with saveUninitialized := b }
      cfg.genid = Except.ok (cookieFromConfig cfg.cookie,
        's' :: ':' :: (cfg.genid ++ '.' :: base64Encode (hmac ls cfg.genid))) := by
    intro b
    rw [buildSessionCookie]
    show (match signCookie hmac cfg.genid ((normalizeSecret cfg.secret).getLastD []) with
      | Except.error m => Except.error m
      | Except.ok w => Except.ok (cookieFromConfig cfg.cookie, w)) = _
    rw [hls, signCookie, if_neg hgen, if_neg hlsne]
  refine ⟨?_, hfresh, rfl, mapGet_mapSet_self σ0 cfg.genid cfg.generate, ?_⟩
  · rw [useSessionModel]
    simp only [Bool.false_eq_true, if_false, hsecret]
    rw [createNewSessionModel, hbuild false]
    rfl
  · rw [useSessionModel]
    simp only [Bool.false_eq_true, if_false, hsecret]
    rw [createNewSessionModel, hbuild true]
    rfl

/-- C7 witness: on the empty map store with the concrete configuration, the
fresh identifier is absent after the `saveUninitialized: false` run but
stored (with exactly the generated data) by an explicit `save()`, and the
`saveUninitialized: true` run persists the generated data immediately. -/
theorem useSession_saveUninitialized_witness :
    mapGet (mapSet [] "fresh-id".toList "fresh-data".toList) "fresh-id".toList =
      some "fresh-data".toList ∧
    useSessionModel hmacToy { toyConfig false with saveUninitialized := true }
      (mapStore (List Char)) [] false none =
      Except.ok (some ⟨⟨"fresh-id".toList, "fresh-data".toList,
        cookieFromConfig (toyConfig false).cookie⟩, "fresh-id".toList,
        's' :: ':' :: ("fresh-id".toList ++ '.' ::
          base64Encode (hmacToy "mySecret".toList "fresh-id".toList)),
        mapSet [] "fresh-id".toList "fresh-data".toList⟩) :=
  ⟨(useSession_saveUninitialized hmacToy (toyConfig false) [] "mySecret".toList
      (by decide) (by decide) (by decide) (by decide) (by decide)).2.2.2.1,
   (useSession_saveUninitialized hmacToy (toyConfig false) [] "mySecret".toList
      (by decide) (by decide) (by decide) (by decide) (by decide)).2.2.2.2⟩

end H3Session
